import Mathlib

/-
Verification of the concourse-piper template-expansion engine.

The Go sources are shallowly embedded:
  - byte slices become List Char,
  - Go maps become association lists (last write wins on a key),
  - fallible functions return Except / an explicit outcome type,
  - the unbounded recursion through the template registry is modelled
    with an explicit fuel parameter so that divergence is observable.
-/

set_option maxRecDepth 4000

/-! ## Header/Body Splitter (findHeader, src/main.go lines 23-29) -/

/-- Outcome of findHeader.  Go's `data[0 : idx-1]` with `idx = 0` computes the
slice `data[0:-1]`, which is a runtime panic (slice bounds out of range);
that outcome is `boundsPanic`. -/
inductive FindHeaderResult where
  | ok (header : List Char)
  | noHeader
  | boundsPanic
deriving DecidableEq

/-- First index at which `pat` occurs in the list, embedding `bytes.Index`:
`none` models Go's `-1`. -/
def findSub (pat : List Char) : List Char → Option Nat
  | [] => if pat.isEmpty then some 0 else none
  | c :: rest =>
    if pat.isPrefixOf (c :: rest) then some 0
    else (findSub pat rest).map (fun i => i + 1)

/-- The marker searched for by findHeader: the literal bytes of the line
`data:` followed by a line break. -/
def dataMarker : List Char := "data:\n".toList

/-- Embeds findHeader from src/main.go: look up the first occurrence of
`"data:\n"`; return an error when absent, otherwise the slice
`data[0 : idx-1]` -- which panics when `idx = 0` and otherwise keeps the
first `idx - 1` bytes. -/
def findHeader (data : List Char) : FindHeaderResult :=
  match findSub dataMarker data with
  | none => .noHeader
  | some idx => if idx = 0 then .boundsPanic else .ok (data.take (idx - 1))

theorem isPrefixOf_nil_eq_false (pat : List Char) (h : pat ≠ []) :
    pat.isPrefixOf ([] : List Char) = false := by
  cases pat with
  | nil => exact absurd rfl h
  | cons a as => rfl

theorem findSub_eq_none_of (pat s : List Char)
    (h : ∀ i, pat.isPrefixOf (s.drop i) = false) : findSub pat s = none := by
  induction s with
  | nil =>
    have h0 := h 0
    cases pat with
    | nil => simp [List.isPrefixOf] at h0
    | cons a as => simp [findSub, List.isEmpty]
  | cons c rest ih =>
    have h0 := h 0
    simp only [List.drop] at h0
    simp only [findSub, h0, if_false, Bool.false_eq_true]
    rw [ih (fun i => h (i + 1))]
    rfl

theorem findSub_eq_some_of (pat s : List Char) (n : Nat)
    (hp : pat.isPrefixOf (s.drop n) = true)
    (hmin : ∀ j, j < n → pat.isPrefixOf (s.drop j) = false) :
    findSub pat s = some n := by
  induction s generalizing n with
  | nil =>
    cases n with
    | zero =>
      simp only [List.drop] at hp
      cases pat with
      | nil => simp [findSub, List.isEmpty]
      | cons a as => simp [List.isPrefixOf] at hp
    | succ m =>
      have h0 := hmin 0 (Nat.succ_pos m)
      simp only [List.drop] at h0 hp
      rw [h0] at hp
      cases hp
  | cons c rest ih =>
    cases n with
    | zero =>
      simp only [List.drop] at hp
      simp [findSub, hp]
    | succ m =>
      have h0 := hmin 0 (Nat.succ_pos m)
      simp only [List.drop] at h0
      simp only [findSub, h0, if_false, Bool.false_eq_true]
      rw [ih m hp (fun j hj => hmin (j + 1) (Nat.succ_lt_succ hj))]
      rfl

/-! ## Metadata model (src/unnamed/part_002: data.go of the repository) -/

/-- Param embeds the Go struct Param; `sec` embeds the field `Section`
(`section` is a Lean keyword). -/
structure Param where
  name : String
  value : String
  sec : String
deriving DecidableEq

/-- ResourceMeta embeds the Go struct ResourceMeta; the Go map
`Params map[string][]Param` becomes an association list. -/
structure ResourceMeta where
  name : String
  nameTemplate : String
  instances : List String
  pipelines : List String
  params : List (String × List Param)
deriving DecidableEq

/-- Embeds `func (m *ResourceMeta) Singleton() bool`: true when
`m.Instances == nil || len(m.Instances) == 0` (both mean the empty list). -/
def ResourceMeta.Singleton (m : ResourceMeta) : Bool :=
  m.instances.isEmpty

/-- Embeds `func (m *ResourceMeta) AllInstances() []string`. -/
def ResourceMeta.AllInstances (m : ResourceMeta) : List String :=
  if m.Singleton then [m.name] else m.instances

/-- ResourceConfigHeader embeds the Go struct of the same name. -/
structure ResourceConfigHeader where
  meta : ResourceMeta
deriving DecidableEq

/-- Embeds the membership loop inside isRelevantForPipeline:
`for _, p := range r.Meta.Pipelines if p == pipeline return true; return false`. -/
def memLoop (l : List String) (pipeline : String) : Bool :=
  match l with
  | [] => false
  | p :: rest => if p == pipeline then true else memLoop rest pipeline

/-- Embeds `func (r *ResourceConfigHeader) isRelevantForPipeline(pipeline string) bool`. -/
def isRelevantForPipeline (r : ResourceConfigHeader) (pipeline : String) : Bool :=
  if r.meta.pipelines.isEmpty then pipeline == ""
  else memLoop r.meta.pipelines pipeline

/-! ## Template execution environment (src/main.go lines 193-210, 301-321) -/

/-- Embeds the `getParam` closure of generateFuncMap: linear search for the
first parameter with the requested name, else the default. -/
def getParam (params : List Param) (name d : String) : String :=
  match params with
  | [] => d
  | p :: rest => if p.name == name then p.value else getParam rest name d

/-- Splitting on the line-break character, embedding `strings.Split(data, "\n")`
(the split of the empty string is the one-element list of the empty string). -/
def splitOnNl : List Char → List (List Char)
  | [] => [[]]
  | c :: rest =>
    match splitOnNl rest with
    | [] => [[]]
    | l :: ls => if c = '\n' then [] :: l :: ls else (c :: l) :: ls

/-- Embeds `strings.Join(lines, "\n")`. -/
def joinNl : List (List Char) → List Char
  | [] => []
  | [l] => l
  | l :: ls => l ++ '\n' :: joinNl ls

/-- Embeds `func indent(data string, offset int) string`: the first line is kept,
every later line is prefixed with `offset` spaces. -/
def indent (data : List Char) (offset : Nat) : List Char :=
  match splitOnNl data with
  | [] => []
  | first :: rest => joinNl (first :: rest.map (fun line => List.replicate offset ' ' ++ line))

/-- Association-list lookup, embedding a Go map read (`m[k]`). -/
def lookupAssoc {α : Type} (l : List (String × α)) (k : String) : Option α :=
  match l with
  | [] => none
  | (k1, v) :: rest => if k1 == k then some v else lookupAssoc rest k

/-- ResourceInstanceContext embeds the Go struct from src/unnamed/part_002
lines 100-105; `Args map[string]interface{}` is modelled as an association
list with string values (the values exercised by the spec and tests). -/
structure ResourceInstanceContext where
  instanceName : String
  params : List Param
  pipeline : String
  args : List (String × String)

/-- Embeds `func (rc *ResourceInstanceContext) Clone() ResourceInstanceContext`:
Instance, Params and Pipeline are copied, Args is left at its zero value
(the empty map). -/
def ResourceInstanceContext.Clone (rc : ResourceInstanceContext) : ResourceInstanceContext :=
  { pipeline := rc.pipeline
    params := rc.params
    instanceName := rc.instanceName
    args := [] }

/-- Builds the Args mapping from an even-length list of alternating keys and
values. -/
def buildArgs : List String → List (String × String)
  | k :: v :: rest => (k, v) :: buildArgs rest
  | _ => []

/-- Modelled from the spec: the keyword-argument form of the template function
named "partial" is missing from src/main.go (the closure there, lines 313-319,
takes exactly name, columns and context); src holds only its declarations
(ResourceInstanceContext.Args and Clone in src/unnamed/part_002, both unused
by any code in src) and its test (TestPartialsWithArgs in src/main_test.go).
Per spec section 4.3: resolve the name against the Partial Registry, render it
with a context derived from the given context (via Clone) but with Args
replaced by a mapping built from the trailing key/value pairs (odd argument
count is a caller error), then apply indent with the given column count.
A registry entry is modelled as the denotation of a compiled sub-template:
a function from the rendering context to output text. -/
def PartialFn (reg : List (String × (ResourceInstanceContext → List Char)))
    (name : String) (cols : Nat) (ctx : ResourceInstanceContext)
    (extra : List String) : Except String (List Char) :=
  if extra.length % 2 == 1 then .error "odd number of key/value arguments"
  else
    match lookupAssoc reg name with
    | none => .error ("no template found with name " ++ name)
    | some body => .ok (indent (body { ctx.Clone with args := buildArgs extra }) cols)

/-! ## Recursive sub-template inclusion (src/main.go lines 313-319)

The closure behind the template-function name "partial" calls
`partials.ExecuteTemplate` again for the named sub-template, which may itself
call the closure, with no depth or cycle guard anywhere: each call re-enters
the template engine with a fresh execution state, so Go's own template depth
limit never fires across the boundary.  The recursion is modelled with an
explicit fuel bound; `noFuel` is the outcome of exceeding any bound. -/

/-- Body of a compiled sub-template: literal text, concatenation, or an
invocation of the template function named "partial". -/
inductive Tmpl where
  | text (s : List Char)
  | seq (a b : Tmpl)
  | incl (name : String) (cols : Nat)

/-- Rendering outcome: a value, a template error returned by the engine, or
exhaustion of the recursion bound (the real code has no bound: it recurses
until the runtime aborts the process with a stack overflow). -/
inductive ROut where
  | ok (s : List Char)
  | err (msg : String)
  | noFuel
deriving DecidableEq

/-- One rendering layer: `recur` is invoked for the body of an included
sub-template, mirroring the nested ExecuteTemplate call in the closure. -/
def renderStep (reg : List (String × Tmpl)) (recur : Tmpl → ROut) : Tmpl → ROut
  | .text s => .ok s
  | .seq a b =>
    match renderStep reg recur a with
    | .ok sa =>
      match renderStep reg recur b with
      | .ok sb => .ok (sa ++ sb)
      | e => e
    | e => e
  | .incl n cols =>
    match lookupAssoc reg n with
    | none => .err ("no template found with name " ++ n)
    | some body =>
      match recur body with
      | .ok s => .ok (indent s cols)
      | e => e

/-- Rendering with a recursion bound `fuel`: at bound zero any further
inclusion yields `noFuel`. -/
def renderTmpl (reg : List (String × Tmpl)) : Nat → Tmpl → ROut
  | 0, t => renderStep reg (fun _ => ROut.noFuel) t
  | n + 1, t => renderStep reg (renderTmpl reg n) t

/-- A registry with a single sub-template "a" whose body includes "a" itself:
the smallest cyclic resolution chain. -/
def cyclicReg : List (String × Tmpl) := [("a", Tmpl.incl "a" 0)]

/-! ## Structured entries and convertToResource (src/main.go lines 281-291) -/

/-- Values of the open, loosely typed entry map (Go: `interface{}`). -/
inductive GoVal where
  | str (s : String)
  | num (n : Int)
  | flag (b : Bool)
deriving DecidableEq

/-- Resource embeds `type Resource map[string]interface{}` as an association
list written through `mapSet` (a Go map write: replace the binding when the
key is present, otherwise add it). -/
abbrev Resource := List (String × GoVal)

/-- A Go map write `m[k] = v`. -/
def mapSet (m : Resource) (k : String) (v : GoVal) : Resource :=
  match m with
  | [] => [(k, v)]
  | (k1, v1) :: rest => if k1 == k then (k1, v) :: rest else (k1, v1) :: mapSet rest k v

/-- ResourceConfig embeds the Go struct of the same name; the `data` map is an
association list. -/
structure ResourceConfig where
  meta : ResourceMeta
  data : List (String × GoVal)

/-- Embeds `func convertToResource(rc ResourceConfig, singleton bool) Resource`:
write "name" from the metadata (Name in singleton mode, NameTemplate
otherwise), then copy every data key into the entry. -/
def convertToResource (rc : ResourceConfig) (singleton : Bool) : Resource :=
  let r0 := mapSet [] "name" (GoVal.str rc.meta.nameTemplate)
  let r1 := if singleton then mapSet r0 "name" (GoVal.str rc.meta.name) else r0
  rc.data.foldl (fun r kv => mapSet r kv.1 kv.2) r1

/-! ## Category Loader error routing (loadResources, src/main.go lines 212-252) -/

/-- A Go error together with what `os.IsNotExist` reports for it.  Errors
wrapped with `fmt.Errorf` are never not-exist; errors handed through from the
filesystem (walk stat failures, `ioutil.ReadFile`) keep their classification. -/
structure GoErr where
  msg : String
  notExist : Bool
deriving DecidableEq

/-- What the walk presents for one visited path, and what the per-file
pipeline does with it.  `statErr` is a walk callback invoked with a non-nil
error (returned unwrapped); `readErr` is a ReadFile failure (returned
unwrapped); `headerErr` is a parseHeader failure (wrapped with fmt.Errorf);
`instances` is the per-instance generateInstance loop, each element either a
rendered entry or a generateInstance failure (wrapped with fmt.Errorf). -/
inductive FileStep where
  | statErr (e : GoErr)
  | notYml
  | readErr (e : GoErr)
  | headerErr (m : String)
  | notRelevant
  | instances (rs : List (Except String Resource))

/-- The instance loop inside the walk callback: append rendered entries in
order; the first failing instance aborts the file with a wrapped error. -/
def runInstances (rs : List (Except String Resource)) (acc : List Resource) :
    List Resource × Option GoErr :=
  match rs with
  | [] => (acc, none)
  | .error m :: _ => (acc, some ⟨"failed to generate instance: " ++ m, false⟩)
  | .ok r :: rest => runInstances rest (acc ++ [r])

/-- The walk callback for one path. -/
def stepRun (s : FileStep) (acc : List Resource) : List Resource × Option GoErr :=
  match s with
  | .statErr e => (acc, some e)
  | .notYml => (acc, none)
  | .readErr e => (acc, some e)
  | .headerErr m => (acc, some ⟨"failed to parse header: " ++ m, false⟩)
  | .notRelevant => (acc, none)
  | .instances rs => runInstances rs acc

/-- `filepath.Walk`: visit paths in order, abort at the first error returned
by the callback, and report accumulated entries alongside. -/
def runWalk (walk : List FileStep) (acc : List Resource) :
    List Resource × Option GoErr :=
  match walk with
  | [] => (acc, none)
  | s :: rest =>
    match stepRun s acc with
    | (acc2, none) => runWalk rest acc2
    | (acc2, some e) => (acc2, some e)

/-- Embeds the error routing of loadResources: a walk error that
`os.IsNotExist` accepts is swallowed and the entries accumulated so far are
returned with no error; any other walk error is wrapped and returned with no
entries. -/
def loadResources (walk : List FileStep) : Except GoErr (List Resource) :=
  match runWalk walk [] with
  | (rs, none) => .ok rs
  | (rs, some e) =>
    if e.notExist then .ok rs
    else .error ⟨"failed to process paths: " ++ e.msg, e.notExist⟩

/-! ## Pipeline Assembler error collection (buildPipeline, src/main.go lines 68-148)

Four loader goroutines share a buffered error channel and a collector that
records the first received error.  The jobs and resource_types goroutines
test their local result `e != nil` before sending; the resources and groups
goroutines instead test the enclosing function's variable `err != nil`
(src/main.go lines 101 and 131), which is nil after loadPartials succeeds and
can only become non-nil after some goroutine has already sent.  The model
below snapshots that outer variable at the moment of the checks; in a run
where only the resources or only the groups loader fails, no send ever
happens, so the outer variable is nil at every check under every schedule. -/

inductive Category where
  | resources
  | jobs
  | resourceTypes
  | groups
deriving DecidableEq

/-- The reports sent to the error channel, given the outer variable observed
by the resources and groups checks and the four loaders' local errors. -/
def loaderReports (outerErr eRes eJobs eRT eGroups : Option String) :
    List (Category × Option String) :=
  (if outerErr.isSome then [(Category.resources, eRes)] else []) ++
  (if eJobs.isSome then [(Category.jobs, eJobs)] else []) ++
  (if eRT.isSome then [(Category.resourceTypes, eRT)] else []) ++
  (if outerErr.isSome then [(Category.groups, eGroups)] else [])

/-- The first error the collector records, in a run where loadPartials
succeeded (outer err starts nil) and no collector write precedes any check. -/
def buildPipelineFirstErr (eRes eJobs eRT eGroups : Option String) :
    Option (Category × Option String) :=
  (loaderReports none eRes eJobs eRT eGroups).head?

/-! ## Claim theorems -/

/-- C9: when the input begins with the marker `data:` followed by a line
break, findHeader computes the slice `data[0 : 0-1]`, whose bounds are
invalid, so it panics instead of returning an empty header or an error. -/
theorem c9_marker_at_start_panics (d : List Char)
    (h : dataMarker.isPrefixOf d = true) :
    findHeader d = FindHeaderResult.boundsPanic := by
  have hs : findSub dataMarker d = some 0 :=
    findSub_eq_some_of _ _ 0 h (fun j hj => absurd hj (Nat.not_lt_zero j))
  simp [findHeader, hs]

theorem c9_marker_at_start_panics_witness :
    findHeader ("data:\nbody".toList) = FindHeaderResult.boundsPanic :=
  c9_marker_at_start_panics _ (by decide)

/-- C3 counterexample: on `"x\ndata:\nrest"` the marker starts at index 2, the
bytes strictly preceding it are the two bytes `"x\n"`, yet findHeader returns
only the single byte `"x"` (the code keeps `data[0 : idx-1]`, dropping the
byte immediately before the marker). -/
theorem c3_counterexample_strict_prefix :
    dataMarker.isPrefixOf (("x\ndata:\nrest".toList).drop 2) = true ∧
    findHeader ("x\ndata:\nrest".toList) = FindHeaderResult.ok ("x".toList) ∧
    ("x".toList : List Char) ≠ ("x\ndata:\nrest".toList).take 2 := by
  refine ⟨by decide, ?_, by decide⟩
  decide

/-- C3 (amended): on bytes with no occurrence of the marker `data:` plus line
break, findHeader fails; when the first occurrence is at index `idx > 0` it
returns the first `idx - 1` bytes — the bytes strictly preceding the marker
with the byte immediately before the marker (normally the preceding line
break) removed; when the marker is at index 0 it panics. -/
theorem c3_header_before_marker (d : List Char) :
    ((∀ i, dataMarker.isPrefixOf (d.drop i) = false) →
      findHeader d = FindHeaderResult.noHeader) ∧
    (∀ idx, 0 < idx → dataMarker.isPrefixOf (d.drop idx) = true →
      (∀ j, j < idx → dataMarker.isPrefixOf (d.drop j) = false) →
      findHeader d = FindHeaderResult.ok (d.take (idx - 1))) ∧
    (dataMarker.isPrefixOf d = true → findHeader d = FindHeaderResult.boundsPanic) := by
  refine ⟨?_, ?_, ?_⟩
  · intro h
    have hs := findSub_eq_none_of dataMarker d h
    simp [findHeader, hs]
  · intro idx hpos hp hmin
    have hs := findSub_eq_some_of dataMarker d idx hp hmin
    simp [findHeader, hs, Nat.pos_iff_ne_zero.mp hpos]
  · exact c9_marker_at_start_panics d

theorem c3_header_before_marker_witness :
    findHeader ("something\ndata:\nbody".toList) =
      FindHeaderResult.ok ("something".toList) := by
  have h := (c3_header_before_marker ("something\ndata:\nbody".toList)).2.1 10
    (by decide) (by decide) (by decide)
  exact h.trans (by decide)

/-- C4 counterexample: a metadata value with empty instances and an empty
name.  Singleton() returns true (it never consults the name), so singleton
mode does not hold exactly when instances is empty and name is non-empty. -/
theorem c4_counterexample_empty_name :
    ¬ (ResourceMeta.Singleton ⟨"", "tmpl", [], [], []⟩ = true ↔
      ((⟨"", "tmpl", [], [], []⟩ : ResourceMeta).instances = [] ∧
        (⟨"", "tmpl", [], [], []⟩ : ResourceMeta).name ≠ "")) := by
  decide

/-- C4 (amended): singleton mode holds exactly when the instances sequence is
empty (the name field is not consulted); in singleton mode AllInstances
returns the single-element sequence containing the name, and with non-empty
instances it returns the instances sequence verbatim. -/
theorem c4_singleton_allInstances (m : ResourceMeta) :
    (m.Singleton = true ↔ m.instances = []) ∧
    (m.instances = [] → m.AllInstances = [m.name]) ∧
    (m.instances ≠ [] → m.AllInstances = m.instances) := by
  obtain ⟨nm, nt, inst, pls, ps⟩ := m
  cases inst <;>
    simp [ResourceMeta.Singleton, ResourceMeta.AllInstances]

theorem c4_singleton_allInstances_witness :
    ResourceMeta.AllInstances ⟨"n", "nt", ["i1"], [], []⟩ = ["i1"] :=
  (c4_singleton_allInstances ⟨"n", "nt", ["i1"], [], []⟩).2.2 (by decide)

theorem memLoop_eq_true_iff (l : List String) (x : String) :
    memLoop l x = true ↔ x ∈ l := by
  induction l with
  | nil => simp [memLoop]
  | cons p rest ih =>
    by_cases h : p = x
    · simp [memLoop, h]
    · have hb : (p == x) = false := beq_eq_false_iff_ne.mpr h
      have hxp : ¬ (x = p) := fun e => h e.symm
      simp [memLoop, hb, ih, List.mem_cons, hxp]

/-- C6: isRelevantForPipeline returns true, when the pipelines list is empty,
exactly for the empty selected pipeline; and, when the list is non-empty,
exactly when the selected pipeline is a member of the list. -/
theorem c6_relevance (r : ResourceConfigHeader) (pl : String) :
    (r.meta.pipelines = [] →
      (isRelevantForPipeline r pl = true ↔ pl = "")) ∧
    (r.meta.pipelines ≠ [] →
      (isRelevantForPipeline r pl = true ↔ pl ∈ r.meta.pipelines)) := by
  obtain ⟨⟨nm, nt, inst, pls, ps⟩⟩ := r
  cases pls with
  | nil => simp [isRelevantForPipeline]
  | cons p rest =>
    simp [isRelevantForPipeline, memLoop_eq_true_iff]

theorem c6_relevance_witness :
    isRelevantForPipeline ⟨⟨"", "", [], ["p1", "p2"], []⟩⟩ "p2" = true :=
  ((c6_relevance ⟨⟨"", "", [], ["p1", "p2"], []⟩⟩ "p2").2 (by decide)).mpr
    (by decide)

/-- C8: getParam returns the value of the first parameter in declared order
whose name equals the requested name, and the supplied default when no
parameter in the sequence has that name. -/
theorem c8_getParam_first_match (params : List Param) (n d : String) :
    getParam params n d =
      (((params.find? (fun p => p.name == n)).map (fun p => p.value)).getD d) := by
  induction params with
  | nil => rfl
  | cons p rest ih =>
    cases h : p.name == n <;> simp [getParam, List.find?, h, ih]

/-- C1: evaluation of the Assembler's error collection at the failing inputs.
The resources and groups goroutines test the enclosing `err` variable instead
of their local result, so a run in which only the resources loader (or only
the groups loader) fails sends nothing to the error channel and buildPipeline
returns no error; the jobs goroutine, which tests its local result, does
report its failure. -/
theorem c1_loader_errors_dropped :
    buildPipelineFirstErr (some "failed to load resources: boom") none none none = none ∧
    buildPipelineFirstErr none none none (some "failed to load groups: boom") = none ∧
    buildPipelineFirstErr none (some "failed to load jobs: boom") none none =
      some (Category.jobs, some "failed to load jobs: boom") :=
  ⟨rfl, rfl, rfl⟩

/-- C5: rendering the cyclic sub-template "a" (whose body includes "a"
itself) exhausts every recursion bound without ever producing a result or a
template error: the code recurses unboundedly on a cyclic resolution chain
instead of failing with an error (the process dies by stack overflow). -/
theorem c5_cyclic_never_errors (fuel : Nat) :
    renderTmpl cyclicReg fuel (Tmpl.incl "a" 0) = ROut.noFuel := by
  induction fuel with
  | zero => rfl
  | succ n ih =>
    simp only [cyclicReg] at ih ⊢
    simp [renderTmpl, renderStep, lookupAssoc, ih]

/-- C2: invoking the keyword-argument form with trailing arguments k, v
renders the named sub-template with a context derived from the given one
whose Args mapping binds k to v, so that a body reading Args at key k sees v. -/
theorem c2_kwargs_visible (reg : List (String × (ResourceInstanceContext → List Char)))
    (n : String) (cols : Nat) (ctx : ResourceInstanceContext) (k v : String)
    (body : ResourceInstanceContext → List Char)
    (h : lookupAssoc reg n = some body) :
    PartialFn reg n cols ctx [k, v] =
      Except.ok (indent (body { ctx.Clone with args := [(k, v)] }) cols) ∧
    lookupAssoc ([(k, v)] : List (String × String)) k = some v := by
  constructor
  · simp [PartialFn, h, buildArgs]
  · simp [lookupAssoc]

def c2Body : ResourceInstanceContext → List Char :=
  fun c => ((lookupAssoc c.args "k").getD "missing").toList

def c2Reg : List (String × (ResourceInstanceContext → List Char)) := [("x", c2Body)]

def c2Ctx : ResourceInstanceContext :=
  { instanceName := "inst", params := [], pipeline := "main", args := [] }

theorem c2_kwargs_visible_witness :
    PartialFn c2Reg "x" 0 c2Ctx ["k", "v"] = Except.ok ("v".toList) := by
  have h := c2_kwargs_visible c2Reg "x" 0 c2Ctx "k" "v" c2Body
    (by simp [c2Reg, lookupAssoc])
  exact h.1.trans (congrArg Except.ok (by decide))

theorem runWalk_append (a b : List FileStep) (acc : List Resource) :
    runWalk (a ++ b) acc =
      (match runWalk a acc with
        | (rs, none) => runWalk b rs
        | (rs, some e) => (rs, some e)) := by
  induction a generalizing acc with
  | nil => rfl
  | cons s rest ih =>
    cases h : stepRun s acc with
    | mk acc2 oe =>
      cases oe with
      | none => simp [runWalk, h, ih]
      | some e => simp [runWalk, h]

/-- C7 counterexample: a walk that first processes a file successfully and
then hits a filesystem error classified not-exist (a file listed by the walk
but gone by the time it is read or stat'ed).  The root directory existed and a
filesystem error other than a missing root occurred, yet loadResources
returns the partial results and no error, where the claim requires an error. -/
theorem c7_counterexample_vanished_file :
    loadResources [FileStep.instances [Except.ok [("name", GoVal.str "r1")]],
        FileStep.readErr ⟨"open b.yml: no such file or directory", true⟩] =
      Except.ok [[("name", GoVal.str "r1")]] := rfl

/-- C7 (amended): loadResources swallows a walk error exactly when
os.IsNotExist accepts it — the missing-root case yields the empty sequence and
no error, but a not-exist failure on an individual file likewise yields the
entries accumulated so far and no error; every walk error that is not
not-exist is returned as an error, and header/render/parse failures are
fmt.Errorf-wrapped and hence never not-exist. -/
theorem c7_notexist_policy :
    (∀ e : GoErr, e.notExist = true →
      loadResources [FileStep.statErr e] = Except.ok []) ∧
    (∀ walk rs e, runWalk walk [] = (rs, some e) → e.notExist = false →
      loadResources walk = Except.error ⟨"failed to process paths: " ++ e.msg, false⟩) ∧
    (∀ walk rs e, runWalk walk [] = (rs, some e) → e.notExist = true →
      loadResources walk = Except.ok rs) ∧
    (∀ pre m rest acc, (runWalk pre acc).2 = none →
      (runWalk (pre ++ FileStep.headerErr m :: rest) acc).2 =
        some ⟨"failed to parse header: " ++ m, false⟩) := by
  refine ⟨?_, ?_, ?_, ?_⟩
  · intro e he
    simp [loadResources, runWalk, stepRun, he]
  · intro walk rs e h hne
    simp [loadResources, h, hne]
  · intro walk rs e h he
    simp [loadResources, h, he]
  · intro pre m rest acc h
    rw [runWalk_append]
    cases hr : runWalk pre acc with
    | mk rs oe =>
      rw [hr] at h
      simp only at h
      subst h
      simp [runWalk, stepRun]

theorem c7_notexist_policy_witness :
    loadResources [FileStep.statErr ⟨"missing category directory", true⟩] =
      Except.ok [] :=
  c7_notexist_policy.1 ⟨"missing category directory", true⟩ rfl

theorem lookupAssoc_mapSet_same (m : Resource) (k : String) (v : GoVal) :
    lookupAssoc (mapSet m k v) k = some v := by
  induction m with
  | nil => simp [mapSet, lookupAssoc]
  | cons kv rest ih =>
    obtain ⟨k1, v1⟩ := kv
    by_cases h : k1 = k
    · simp [mapSet, lookupAssoc, h]
    · have hb : (k1 == k) = false := beq_eq_false_iff_ne.mpr h
      simp [mapSet, lookupAssoc, hb, ih]

theorem lookupAssoc_mapSet_other (m : Resource) (k1 k : String) (v : GoVal)
    (h : k1 ≠ k) :
    lookupAssoc (mapSet m k1 v) k = lookupAssoc m k := by
  induction m with
  | nil => simp [mapSet, lookupAssoc, beq_eq_false_iff_ne.mpr h]
  | cons kv rest ih =>
    obtain ⟨k2, v2⟩ := kv
    by_cases h2 : k2 = k1
    · subst h2
      simp [mapSet, lookupAssoc, beq_eq_false_iff_ne.mpr h]
    · simp [mapSet, lookupAssoc, beq_eq_false_iff_ne.mpr h2, ih]

theorem lookupAssoc_foldl_not_mem (l : List (String × GoVal)) (r : Resource)
    (k : String) (h : k ∉ l.map Prod.fst) :
    lookupAssoc (l.foldl (fun r kv => mapSet r kv.1 kv.2) r) k = lookupAssoc r k := by
  induction l generalizing r with
  | nil => rfl
  | cons kv rest ih =>
    obtain ⟨k1, v1⟩ := kv
    simp only [List.map_cons, List.mem_cons, not_or] at h
    simp only [List.foldl_cons]
    rw [ih _ h.2, lookupAssoc_mapSet_other _ _ _ _ (fun e => h.1 e.symm)]

theorem lookupAssoc_foldl_mem (l : List (String × GoVal)) (r : Resource)
    (k : String) (v : GoVal) (hmem : (k, v) ∈ l)
    (hnd : (l.map Prod.fst).Nodup) :
    lookupAssoc (l.foldl (fun r kv => mapSet r kv.1 kv.2) r) k = some v := by
  induction l generalizing r with
  | nil => cases hmem
  | cons kv rest ih =>
    obtain ⟨k1, v1⟩ := kv
    simp only [List.map_cons, List.nodup_cons] at hnd
    rcases List.mem_cons.mp hmem with heq | hmem2
    · injection heq with hk hv
      subst hk
      subst hv
      simp only [List.foldl_cons]
      rw [lookupAssoc_foldl_not_mem rest _ k hnd.1, lookupAssoc_mapSet_same]
    · simp only [List.foldl_cons]
      exact ih _ hmem2 hnd.2

/-- C10: when the parsed data section itself contains a key "name", the
entry produced by convertToResource carries the data section's value at
"name", overriding the name assigned first from the metadata, because the
data keys are copied into the entry after the name is assigned (keys of a
parsed data map are unique). -/
theorem c10_data_name_overrides (rc : ResourceConfig) (singleton : Bool)
    (v : GoVal) (hmem : ("name", v) ∈ rc.data)
    (hnd : (rc.data.map Prod.fst).Nodup) :
    lookupAssoc (convertToResource rc singleton) "name" = some v :=
  lookupAssoc_foldl_mem rc.data _ "name" v hmem hnd

theorem c10_data_name_overrides_witness :
    lookupAssoc
      (convertToResource
        ⟨⟨"metaName", "tmplName", ["i"], [], []⟩,
          [("name", GoVal.str "fromData"), ("type", GoVal.str "git")]⟩ false)
      "name" = some (GoVal.str "fromData") :=
  c10_data_name_overrides _ false (GoVal.str "fromData") (by decide) (by decide)
